import Mathlib

/-!
Verification of the NVE vannføring dashboard (`src/App.jsx`) against its
specification.  The relevant program fragments — the station search filter,
the two fetch handlers viewed as state transitions, the derived statistics,
chart points and the CSV serialisation — are embedded shallowly below.
Strings are `List Char`; JavaScript numbers are `ℚ` extended, where the
program can produce them, with `Infinity`, `-Infinity` and `NaN`
(the `JNum` type); the HTTP layer is an oracle argument (`FetchResult`)
recording what the network returned.
-/

namespace NVE

/-- JavaScript strings, modelled as lists of characters. -/
abbrev Str := List Char

/-- Models `String.prototype.toLowerCase` (character-wise simple lowering;
the search terms and fields in the claims are ASCII). -/
def jsToLower (s : Str) : Str := s.map Char.toLower

/-- Models `String.prototype.includes`: `jsIncludes s sub` is true when
`sub` occurs contiguously inside `s`. -/
def jsIncludes (s sub : Str) : Bool := decide (sub <:+: s)

/-- A station record as delivered by `GET /Stations`.  Every field is
optional: the source guards each access with optional chaining (`?.`). -/
structure Station where
  stationId : Option Str
  stationName : Option Str
  riverName : Option Str
deriving DecidableEq

/-- The search filter of `App.jsx` lines 50–63: an empty term returns the
catalog itself; otherwise the term is lowered once and a station is kept
when its lowered name or lowered river name contains the lowered term, or
its raw identifier contains the lowered term.  An absent field fails its
disjunct (the `?.` chain yields a falsy value) instead of throwing. -/
def filterStations (stations : List Station) (searchTerm : Str) : List Station :=
  if searchTerm = [] then stations
  else
    let term := jsToLower searchTerm
    stations.filter fun s =>
      (match s.stationName with
       | some n => jsIncludes (jsToLower n) term
       | none => false) ||
      (match s.riverName with
       | some r => jsIncludes (jsToLower r) term
       | none => false) ||
      (match s.stationId with
       | some i => jsIncludes i term
       | none => false)

/-- One observation `{time, value}`; `value` is `null`able. -/
structure Obs where
  time : Str
  value : Option ℚ
deriving DecidableEq

/-- The normalised station-data record built in `fetchStationData`. -/
structure StationData where
  stationId : Str
  stationName : Str
  parameter : Str
  unit : Str
  observations : List Obs
deriving DecidableEq

/-- A JavaScript number as the statistics pipeline can produce it:
a finite value, `Infinity`, `-Infinity` or `NaN`. -/
inductive JNum where
  | num (q : ℚ)
  | posInf
  | negInf
  | nan
deriving DecidableEq

/-- Models `o.value || 0`: `null` (and only `null`, for the values the API
delivers) is replaced by `0`. -/
def jsOr (v : Option ℚ) : ℚ :=
  match v with
  | none => 0
  | some q => q

/-- Models `Math.min(...l)`: `Infinity` on no arguments, otherwise the least
argument. -/
def mathMin : List ℚ → JNum
  | [] => .posInf
  | x :: xs => .num (xs.foldl min x)

/-- Models `Math.max(...l)`: `-Infinity` on no arguments, otherwise the
greatest argument. -/
def mathMax : List ℚ → JNum
  | [] => .negInf
  | x :: xs => .num (xs.foldl max x)

/-- Models JavaScript division of a finite sum by a length: division by `0`
follows IEEE (`0/0 = NaN`, otherwise a signed infinity). -/
def jsDiv (s : ℚ) (n : ℕ) : JNum :=
  if n = 0 then (if 0 < s then .posInf else if s < 0 then .negInf else .nan)
  else .num (s / n)

/-- The derived statistics record of `App.jsx` lines 131–136. -/
structure Stats where
  count : ℕ
  min : JNum
  max : JNum
  avg : JNum
deriving DecidableEq

/-- Embeds `stats` from `App.jsx` lines 131–136: `null` when no station data is
loaded, otherwise count, `Math.min`/`Math.max` over the values with `null`
coerced to `0`, and the `reduce` sum divided by the count. -/
def computeStats (stationData : Option StationData) : Option Stats :=
  match stationData with
  | none => none
  | some d =>
      some { count := d.observations.length
             min := mathMin (d.observations.map fun o => jsOr o.value)
             max := mathMax (d.observations.map fun o => jsOr o.value)
             avg := jsDiv (d.observations.foldl (fun sum o => sum + jsOr o.value) 0)
                          d.observations.length }

/-- A chart point `{time, value}`; the value is passed through untouched
(`null` included). -/
structure ChartPoint where
  time : Str
  value : Option ℚ
deriving DecidableEq

/-- Embeds `chartData` from `App.jsx` lines 121–129.  The locale timestamp
formatting (`toLocaleDateString`) is a host function, abstracted as `fmt`;
absent station data yields `[]` via the trailing `|| []`. -/
def chartData (fmt : Str → Str) (stationData : Option StationData) : List ChartPoint :=
  match stationData with
  | some d => d.observations.map fun o => { time := fmt o.time, value := o.value }
  | none => []

/-- Decimal digit character; only ever applied to `n % 10`. -/
def digitChar (n : ℕ) : Char :=
  if n = 0 then '0' else if n = 1 then '1' else if n = 2 then '2'
  else if n = 3 then '3' else if n = 4 then '4' else if n = 5 then '5'
  else if n = 6 then '6' else if n = 7 then '7' else if n = 8 then '8' else '9'

/-- Digits of `n` in base ten, most significant first, prepended to `acc`;
`fuel ≥ n` suffices for full conversion. -/
def natToDigits : ℕ → ℕ → Str → Str
  | 0, _, acc => acc
  | fuel + 1, n, acc => if n = 0 then acc else natToDigits fuel (n / 10) (digitChar (n % 10) :: acc)

/-- Decimal representation of a natural number. -/
def natRepr (n : ℕ) : Str := if n = 0 then ['0'] else natToDigits n n []

/-- Decimal representation of an integer. -/
def intRepr : ℤ → Str
  | Int.ofNat n => natRepr n
  | Int.negSucc n => '-' :: natRepr (n + 1)

/-- Models JavaScript number-to-string conversion for the values the export
path renders: an integral value prints as its plain decimal integer (the
JS behaviour); a non-integral rational prints as `num/den`, a stand-in for
the decimal expansion whose only property the development relies on is
that it contains no newline. -/
def jsNumToString (q : ℚ) : Str :=
  if q.den = 1 then intRepr q.num else intRepr q.num ++ '/' :: natRepr q.den

/-- Models the element conversion of `Array.prototype.join`: `null` becomes
the empty string, a number its string form. -/
def renderValue : Option ℚ → Str
  | none => []
  | some q => jsNumToString q

/-- The CSV text built in `downloadCSV` (`App.jsx` lines 107–112):
`['Time', `Value (unit)`].join(',')` followed by one
`[obs.time, obs.value].join(',')` row per observation, newline-joined. -/
def toDelimitedText (d : StationData) : Str :=
  let headers : List Str := ["Time".toList, "Value (".toList ++ d.unit ++ [')']]
  let rows : List Str :=
    d.observations.map fun obs => List.intercalate [','] [obs.time, renderValue obs.value]
  List.intercalate ['\n'] (List.intercalate [','] headers :: rows)

/-- The file a successful `downloadCSV` offers. -/
structure CsvFile where
  name : Str
  content : Str
deriving DecidableEq

/-- Embeds `downloadCSV` from `App.jsx` lines 104–119 as a function from the
session's station data (and the date range used for the filename) to the
file offered, `none` when the early return fires
(`!stationData || !stationData.observations.length`). -/
def downloadCSV (stationData : Option StationData) (startDate endDate : Str) : Option CsvFile :=
  match stationData with
  | none => none
  | some d =>
      if d.observations.length = 0 then none
      else
        some { name := d.stationId ++ '_' :: startDate ++ '_' :: endDate ++ ".csv".toList
               content := toDelimitedText d }

/-- One series group of a `GET /Observations` response. -/
structure ObsEntry where
  stationId : Str
  stationName : Str
  parameterName : Str
  unit : Str
  observations : Option (List Obs)
deriving DecidableEq

/-- One issued `/Observations` request, with the `URLSearchParams` the
source builds. -/
structure ObsRequest where
  stationId : Str
  parameter : Str
  resolutionTime : Str
  referenceTime : Str
deriving DecidableEq

/-- Outcome of `response.json()`: the parsed body, or the rejection message
when the body is not JSON. -/
inductive JsonBody (α : Type) where
  | parseError (msg : Str)
  | parsed (value : α)
deriving DecidableEq

/-- What the network returned for one fetch: a rejected `fetch` (network
error, carrying the error message), or an HTTP response with its status and
`.json()` outcome.  The status is recorded so that claims about it can be
stated — the source itself never reads it. -/
inductive FetchResult (α : Type) where
  | networkError (msg : Str)
  | response (status : ℕ) (body : JsonBody α)
deriving DecidableEq

/-- The session state of the component, together with two instrumentation
fields (`stationsRequests`, `obsRequests`) counting the requests the
fetchers actually issue, so that "performs no request" is expressible. -/
structure AppState where
  apiKey : Str
  stations : List Station
  filteredStations : List Station
  searchTerm : Str
  selectedStation : Option Station
  stationData : Option StationData
  loading : Bool
  startDate : Str
  endDate : Str
  parameter : Str
  showApiKeyInput : Bool
  alerts : List Str
  stationsRequests : ℕ
  obsRequests : List ObsRequest
deriving DecidableEq

/-- The alert text `'Error fetching stations: ' + error.message`. -/
def stationsErrorText (msg : Str) : Str := "Error fetching stations: ".toList ++ msg

/-- Embeds `fetchStations` from `App.jsx` lines 29–48 as a state transition given
the network's answer.  Empty key: immediate return.  Otherwise the request
is issued; a rejected fetch or a non-JSON body lands in the `catch` and
appends an alert; any JSON body — the status is never inspected —
replaces `stations` and `filteredStations` with `data.data || []` and
clears the gating flag. -/
def fetchStations (st : AppState) (r : FetchResult (Option (List Station))) : AppState :=
  if st.apiKey = [] then st
  else
    let st1 := { st with loading := true, stationsRequests := st.stationsRequests + 1 }
    let st2 :=
      match r with
      | .networkError msg => { st1 with alerts := st1.alerts ++ [stationsErrorText msg] }
      | .response _status body =>
        match body with
        | .parseError msg => { st1 with alerts := st1.alerts ++ [stationsErrorText msg] }
        | .parsed d =>
            { st1 with
              stations := d.getD []
              filteredStations := d.getD []
              showApiKeyInput := false }
    { st2 with loading := false }

/-- The alert text `'Error fetching station data: ' + error.message`. -/
def obsErrorText (msg : Str) : Str := "Error fetching station data: ".toList ++ msg

/-- Embeds `fetchStationData` from `App.jsx` lines 65–102 as a state transition.
The guard checks `apiKey`, `startDate`, `endDate` — and nothing else; in
particular the `stationId` argument is not checked.  Past the guard the
previous series is cleared, the request (with its `URLSearchParams`) is
issued, errors append an alert, and a JSON body whose `data` has a first
entry is normalised into `stationData`. -/
def fetchStationData (st : AppState) (stationId : Str)
    (r : FetchResult (Option (List ObsEntry))) : AppState :=
  if st.apiKey = [] ∨ st.startDate = [] ∨ st.endDate = [] then st
  else
    let st1 :=
      { st with
        loading := true
        stationData := none
        obsRequests := st.obsRequests ++
          [({ stationId := stationId
              parameter := st.parameter
              resolutionTime := ['0']
              referenceTime := st.startDate ++ '/' :: st.endDate } : ObsRequest)] }
    let st2 :=
      match r with
      | .networkError msg => { st1 with alerts := st1.alerts ++ [obsErrorText msg] }
      | .response _status body =>
        match body with
        | .parseError msg => { st1 with alerts := st1.alerts ++ [obsErrorText msg] }
        | .parsed d =>
          match d.getD [] with
          | [] => st1
          | e :: _ =>
              { st1 with
                stationData := some
                  ({ stationId := e.stationId
                     stationName := e.stationName
                     parameter := e.parameterName
                     unit := e.unit
                     observations := e.observations.getD [] } : StationData) }
    { st2 with loading := false }

/-! ### Spec-side predicates and concrete scenario data -/

/-- The matcher exactly as claim C1 words it: display name, river name
*and identifier* each matched as a case-insensitive substring
(both sides lowered); an absent field is skipped. -/
def ciMatches (term : Str) (s : Station) : Bool :=
  (match s.stationName with
   | some n => jsIncludes (jsToLower n) (jsToLower term)
   | none => false) ||
  (match s.riverName with
   | some r => jsIncludes (jsToLower r) (jsToLower term)
   | none => false) ||
  (match s.stationId with
   | some i => jsIncludes (jsToLower i) (jsToLower term)
   | none => false)

/-- The corrected matching predicate, stated spec-side over the infix
relation: name and river name contain the term case-insensitively, while
the identifier must contain the *lowered* term literally (the source never
lowers `stationId`); an absent field never matches. -/
def matchesSpec (term : Str) (s : Station) : Prop :=
  (∃ n, s.stationName = some n ∧ jsToLower term <:+: jsToLower n) ∨
  (∃ r, s.riverName = some r ∧ jsToLower term <:+: jsToLower r) ∨
  (∃ i, s.stationId = some i ∧ jsToLower term <:+: i)

/-- Scenario-1 station 1. -/
def stGlomma : Station :=
  { stationId := some "1".toList, stationName := some "Elv A".toList,
    riverName := some "Glomma".toList }

/-- Scenario-1 station 2. -/
def stGaula : Station :=
  { stationId := some "2".toList, stationName := some "Elv B".toList,
    riverName := some "Gaula".toList }

/-- A station whose identifier carries an upper-case letter, separating the
code's identifier matching from the claim's case-insensitive one. -/
def stA : Station :=
  { stationId := some ['A'], stationName := some ['X'], riverName := some ['Y'] }

/-- The Scenario-2 observation series: values `10`, `null`, `20`. -/
def scenObs : List Obs :=
  [{ time := "t1".toList, value := some 10 },
   { time := "t2".toList, value := none },
   { time := "t3".toList, value := some 20 }]

/-- The Scenario-2 station data with unit `m3/s`. -/
def scenD : StationData :=
  { stationId := "1".toList, stationName := "Elv A".toList,
    parameter := "Vannforing".toList, unit := "m3/s".toList, observations := scenObs }

/-- Station data whose series is present but empty. -/
def emptyD : StationData :=
  { stationId := "1".toList, stationName := "E".toList, parameter := "P".toList,
    unit := "u".toList, observations := [] }

/-- A session holding a previously fetched one-station catalog, a non-empty
credential and a populated date range. -/
def sessionWithCatalog : AppState :=
  { apiKey := ['k']
    stations := [stGlomma]
    filteredStations := [stGlomma]
    searchTerm := []
    selectedStation := none
    stationData := none
    loading := false
    startDate := "2024-01-01".toList
    endDate := "2024-01-08".toList
    parameter := "1001".toList
    showApiKeyInput := true
    alerts := []
    stationsRequests := 0
    obsRequests := [] }

/-- A session with an empty credential (gated state). -/
def sessionNoKey : AppState :=
  { sessionWithCatalog with apiKey := [] }

/-- The value list the statistics are computed over: the observations'
values with `null` coerced to `0`. -/
def obsValues (d : StationData) : List ℚ := d.observations.map fun o => jsOr o.value

/-! ### Helper lemmas -/

lemma foldl_min_mem (x : ℚ) (xs : List ℚ) : xs.foldl min x ∈ x :: xs := by
  induction xs generalizing x with
  | nil => simp
  | cons y ys ih =>
    rw [List.foldl_cons]
    rcases List.mem_cons.mp (ih (min x y)) with h | h
    · rcases min_choice x y with hm | hm
      · rw [h, hm]; simp
      · rw [h, hm]; simp
    · simp [h]

lemma foldl_min_le (x : ℚ) (xs : List ℚ) : ∀ y ∈ x :: xs, xs.foldl min x ≤ y := by
  induction xs generalizing x with
  | nil =>
    intro y hy
    rw [List.mem_singleton] at hy
    exact le_of_eq (by rw [hy, List.foldl_nil])
  | cons z zs ih =>
    intro y hy
    rw [List.foldl_cons]
    have hhead := ih (min x z) (min x z) (List.mem_cons_self _ _)
    rcases List.mem_cons.mp hy with h | h
    · subst h; exact le_trans hhead (min_le_left _ _)
    · rcases List.mem_cons.mp h with h' | h'
      · subst h'; exact le_trans hhead (min_le_right _ _)
      · exact ih (min x z) y (List.mem_cons_of_mem _ h')

lemma foldl_max_mem (x : ℚ) (xs : List ℚ) : xs.foldl max x ∈ x :: xs := by
  induction xs generalizing x with
  | nil => simp
  | cons y ys ih =>
    rw [List.foldl_cons]
    rcases List.mem_cons.mp (ih (max x y)) with h | h
    · rcases max_choice x y with hm | hm
      · rw [h, hm]; simp
      · rw [h, hm]; simp
    · simp [h]

lemma foldl_max_ge (x : ℚ) (xs : List ℚ) : ∀ y ∈ x :: xs, y ≤ xs.foldl max x := by
  induction xs generalizing x with
  | nil =>
    intro y hy
    rw [List.mem_singleton] at hy
    exact le_of_eq (by rw [hy, List.foldl_nil])
  | cons z zs ih =>
    intro y hy
    rw [List.foldl_cons]
    have hhead := ih (max x z) (max x z) (List.mem_cons_self _ _)
    rcases List.mem_cons.mp hy with h | h
    · subst h; exact le_trans (le_max_left _ _) hhead
    · rcases List.mem_cons.mp h with h' | h'
      · subst h'; exact le_trans (le_max_right _ _) hhead
      · exact ih (max x z) y (List.mem_cons_of_mem _ h')

/-- Value of `mathMin` on a non-empty list is a finite value: the least element. -/
lemma mathMin_spec (l : List ℚ) (h : l ≠ []) :
    ∃ m, mathMin l = .num m ∧ m ∈ l ∧ ∀ y ∈ l, m ≤ y := by
  cases l with
  | nil => exact absurd rfl h
  | cons x xs => exact ⟨xs.foldl min x, rfl, foldl_min_mem x xs, foldl_min_le x xs⟩

/-- Value of `mathMax` on a non-empty list is a finite value: the greatest element. -/
lemma mathMax_spec (l : List ℚ) (h : l ≠ []) :
    ∃ M, mathMax l = .num M ∧ M ∈ l ∧ ∀ y ∈ l, y ≤ M := by
  cases l with
  | nil => exact absurd rfl h
  | cons x xs => exact ⟨xs.foldl max x, rfl, foldl_max_mem x xs, foldl_max_ge x xs⟩

lemma foldl_add (a : ℚ) (l : List ℚ) : l.foldl (· + ·) a = a + l.sum := by
  induction l generalizing a with
  | nil => simp
  | cons x xs ih => simp [ih, add_assoc]

/-- The source `reduce` in the source sums exactly the null-coerced values. -/
lemma foldl_stats_sum (obs : List Obs) :
    obs.foldl (fun sum o => sum + jsOr o.value) 0 = (obs.map fun o => jsOr o.value).sum := by
  have h := List.foldl_map (fun o : Obs => jsOr o.value) (fun sum v => sum + v) obs (0 : ℚ)
  rw [← h, foldl_add, zero_add]

lemma digitChar_ne_newline (k : ℕ) : digitChar k ≠ '\n' := by
  simp only [digitChar]
  split_ifs <;> decide

lemma mem_natToDigits (fuel : ℕ) : ∀ (n : ℕ) (acc : Str) (c : Char),
    c ∈ natToDigits fuel n acc → c ∈ acc ∨ ∃ k, c = digitChar k := by
  induction fuel with
  | zero => intro n acc c hc; exact Or.inl hc
  | succ f ih =>
    intro n acc c hc
    simp only [natToDigits] at hc
    by_cases h : n = 0
    · rw [if_pos h] at hc; exact Or.inl hc
    · rw [if_neg h] at hc
      rcases ih _ _ _ hc with h' | h'
      · rcases List.mem_cons.mp h' with h2 | h2
        · exact Or.inr ⟨n % 10, h2⟩
        · exact Or.inl h2
      · exact Or.inr h'

lemma natRepr_ne_newline (n : ℕ) : ('\n' : Char) ∉ natRepr n := by
  intro hc
  simp only [natRepr] at hc
  by_cases h : n = 0
  · rw [if_pos h] at hc
    exact absurd (List.mem_singleton.mp hc) (by decide)
  · rw [if_neg h] at hc
    rcases mem_natToDigits _ _ _ _ hc with h' | ⟨k, hk⟩
    · exact List.not_mem_nil _ h'
    · exact digitChar_ne_newline k hk.symm

lemma intRepr_ne_newline (z : ℤ) : ('\n' : Char) ∉ intRepr z := by
  cases z with
  | ofNat n => exact natRepr_ne_newline n
  | negSucc n =>
    intro hc
    rcases List.mem_cons.mp hc with h | h
    · exact absurd h (by decide)
    · exact natRepr_ne_newline _ h

lemma jsNumToString_ne_newline (q : ℚ) : ('\n' : Char) ∉ jsNumToString q := by
  simp only [jsNumToString]
  by_cases h : q.den = 1
  · rw [if_pos h]; exact intRepr_ne_newline _
  · rw [if_neg h]
    intro hc
    rcases List.mem_append.mp hc with h' | h'
    · exact intRepr_ne_newline _ h'
    · rcases List.mem_cons.mp h' with h2 | h2
      · exact absurd h2 (by decide)
      · exact natRepr_ne_newline _ h2

lemma renderValue_ne_newline (v : Option ℚ) : ('\n' : Char) ∉ renderValue v := by
  cases v with
  | none => simp [renderValue]
  | some q => exact jsNumToString_ne_newline q

lemma intercalate_pair (a b : Str) (c : Char) :
    List.intercalate [c] [a, b] = a ++ c :: b := by
  simp [List.intercalate]

/-! ### Claim theorems -/

/-- Claim C8: for every catalog `C` and term `T`, filtering with the empty
term returns `C` unchanged, and filtering with any term yields an
order-preserving subsequence of `C`. -/
theorem filterStations_empty_id_and_sublist (C : List Station) (T : Str) :
    filterStations C [] = C ∧ (filterStations C T).Sublist C := by
  constructor
  · simp [filterStations]
  · by_cases h : T = []
    · simp only [filterStations, if_pos h]
      exact List.Sublist.refl C
    · simp only [filterStations, if_neg h]
      exact List.filter_sublist C

/-- Claim C9: `filterStations` is idempotent — filtering an already filtered
catalog again with the same term returns the same list. -/
theorem filterStations_idem (C : List Station) (T : Str) :
    filterStations (filterStations C T) T = filterStations C T := by
  by_cases h : T = []
  · simp [filterStations, h]
  · simp only [filterStations, if_neg h]
    rw [List.filter_filter]
    exact List.filter_congr fun a _ => by rw [Bool.and_self]

/-- Claim C10: the CSV export produces a file exactly when station data is
present with at least one observation; otherwise the early return fires and
nothing is produced. -/
theorem downloadCSV_isSome_iff (sd : Option StationData) (s e : Str) :
    (downloadCSV sd s e).isSome = true ↔ ∃ d, sd = some d ∧ d.observations ≠ [] := by
  cases sd with
  | none => simp [downloadCSV]
  | some d =>
    by_cases h : d.observations.length = 0
    · rw [List.length_eq_zero] at h
      simp [downloadCSV, h]
    · rw [List.length_eq_zero] at h
      simp [downloadCSV, h]

/-- Claim C4 counterexample: with a non-empty credential and both dates set,
calling the observation fetcher with an *empty station identifier* is not a
no-op — the state changes and a request carrying the empty identifier is
issued, contradicting the claimed `stationId ≠ ""` precondition. -/
theorem fetchStationData_empty_id_not_noop :
    fetchStationData sessionWithCatalog [] (.response 200 (.parsed none)) ≠
        sessionWithCatalog ∧
      (fetchStationData sessionWithCatalog [] (.response 200 (.parsed none))).obsRequests.length
        = 1 := by
  constructor
  · decide
  · decide

/-- Claim C4 (amended): `fetchStationData` is a no-op exactly when the
credential is empty or the range start or end is absent; the station
identifier is not part of the guard. -/
theorem fetchStationData_noop_iff (st : AppState) (sid : Str)
    (r : FetchResult (Option (List ObsEntry))) :
    fetchStationData st sid r = st ↔
      (st.apiKey = [] ∨ st.startDate = [] ∨ st.endDate = []) := by
  constructor
  · intro h
    by_contra hc
    have hreq : (fetchStationData st sid r).obsRequests =
        st.obsRequests ++
          [({ stationId := sid
              parameter := st.parameter
              resolutionTime := ['0']
              referenceTime := st.startDate ++ '/' :: st.endDate } : ObsRequest)] := by
      simp only [fetchStationData, if_neg hc]
      rcases r with msg | ⟨c, body⟩
      · rfl
      · rcases body with msg | d
        · rfl
        · rcases hd : d.getD [] with _ | ⟨e, es⟩ <;> simp [hd]
    rw [h] at hreq
    simpa using congrArg List.length hreq
  · intro h
    rw [fetchStationData, if_pos h]

/-- Claim C1 counterexample: the claim's fully case-insensitive matching
disagrees with the code on a station whose identifier contains an
upper-case letter: for term `"A"` the code lowers the term but not the
identifier, so the station is dropped, while the claim's reading keeps
it. -/
theorem filterStations_id_matching_cex :
    filterStations [stA] ['A'] = [] ∧ List.filter (ciMatches ['A']) [stA] = [stA] := by
  constructor
  · decide
  · decide

/-- Claim C1 (amended): for every catalog and non-empty term the filter
returns, in original catalog order, exactly the stations matched by
`matchesSpec` — display name and river name as case-insensitive
substrings, the identifier containing the lowered term literally, absent
fields skipped (the embedding is total, so no error is possible). -/
theorem filterStations_matches_spec (cat : List Station) (t : Str) (ht : t ≠ []) :
    ∃ p : Station → Bool, filterStations cat t = cat.filter p ∧
      ∀ s : Station, p s = true ↔ matchesSpec t s := by
  refine ⟨fun s =>
    (match s.stationName with
     | some n => jsIncludes (jsToLower n) (jsToLower t)
     | none => false) ||
    (match s.riverName with
     | some r => jsIncludes (jsToLower r) (jsToLower t)
     | none => false) ||
    (match s.stationId with
     | some i => jsIncludes i (jsToLower t)
     | none => false), ?_, ?_⟩
  · simp only [filterStations, if_neg ht]
  · intro s
    rcases s with ⟨i, n, r⟩
    simp only [matchesSpec, jsIncludes, Bool.or_eq_true, decide_eq_true_eq]
    cases n <;> cases r <;> cases i <;> simp [or_assoc]

/-- Claim C1 witness: Scenario 1 — catalog `[stGlomma, stGaula]` and term
`"glom"`; the theorem applies and the filter returns only station `"1"`. -/
theorem filterStations_matches_spec_witness :
    ("glom".toList ≠ [] ∧
      ∃ p : Station → Bool,
        filterStations [stGlomma, stGaula] "glom".toList =
            List.filter p [stGlomma, stGaula] ∧
          ∀ s : Station, p s = true ↔ matchesSpec "glom".toList s) ∧
      filterStations [stGlomma, stGaula] "glom".toList = [stGlomma] :=
  ⟨⟨by decide, filterStations_matches_spec [stGlomma, stGaula] "glom".toList (by decide)⟩,
    by decide⟩

/-- Claim C2 counterexample: a non-success HTTP status whose body is valid
JSON is *not* treated as a failure: here a 401 response with JSON body and
no `data` field empties the previously fetched catalog, surfaces no error
and clears the gating flag — against the claim that a non-success status
surfaces an error and leaves the catalog at its previous value. -/
theorem fetchStations_status_ignored_cex :
    (fetchStations sessionWithCatalog (.response 401 (.parsed none))).stations ≠
        sessionWithCatalog.stations ∧
      (fetchStations sessionWithCatalog (.response 401 (.parsed none))).alerts =
        sessionWithCatalog.alerts ∧
      (fetchStations sessionWithCatalog (.response 401 (.parsed none))).showApiKeyInput
        = false := by
  refine ⟨by decide, by decide, by decide⟩

/-- Claim C2 (amended): with a non-empty credential, a network error or a
non-JSON body leaves the catalog (and its filtered view and the gating
flag) at its previous value and appends exactly one alert whose text
contains the failure description; any response whose body parses as JSON —
its HTTP status is never inspected — replaces the catalog with the body's
`data` array (empty when the field is absent), clears the gating flag and
surfaces no error. -/
theorem fetchStations_failure_success (st : AppState)
    (r : FetchResult (Option (List Station))) (hk : st.apiKey ≠ []) :
    (∀ msg, (r = .networkError msg ∨ ∃ c, r = .response c (.parseError msg)) →
      (fetchStations st r).stations = st.stations ∧
      (fetchStations st r).filteredStations = st.filteredStations ∧
      (fetchStations st r).showApiKeyInput = st.showApiKeyInput ∧
      (fetchStations st r).alerts = st.alerts ++ [stationsErrorText msg] ∧
      msg <:+: stationsErrorText msg) ∧
    (∀ c d, r = .response c (.parsed d) →
      (fetchStations st r).stations = d.getD [] ∧
      (fetchStations st r).filteredStations = d.getD [] ∧
      (fetchStations st r).showApiKeyInput = false ∧
      (fetchStations st r).alerts = st.alerts) := by
  constructor
  · rintro msg (rfl | ⟨c, rfl⟩) <;>
      exact ⟨by simp [fetchStations, hk], by simp [fetchStations, hk],
        by simp [fetchStations, hk], by simp [fetchStations, hk],
        List.IsSuffix.isInfix (List.suffix_append "Error fetching stations: ".toList msg)⟩
  · rintro c d rfl
    exact ⟨by simp [fetchStations, hk], by simp [fetchStations, hk],
      by simp [fetchStations, hk], by simp [fetchStations, hk]⟩

/-- Claim C2 witness: the amended theorem applied to the session holding a
one-station catalog and a network error `"boom"`. -/
theorem fetchStations_failure_success_witness :
    sessionWithCatalog.apiKey ≠ [] ∧
      ((∀ msg,
          ((FetchResult.networkError "boom".toList :
              FetchResult (Option (List Station))) = .networkError msg ∨
            ∃ c, (FetchResult.networkError "boom".toList :
              FetchResult (Option (List Station))) = .response c (.parseError msg)) →
          (fetchStations sessionWithCatalog (.networkError "boom".toList)).stations =
            sessionWithCatalog.stations ∧
          (fetchStations sessionWithCatalog (.networkError "boom".toList)).filteredStations =
            sessionWithCatalog.filteredStations ∧
          (fetchStations sessionWithCatalog (.networkError "boom".toList)).showApiKeyInput =
            sessionWithCatalog.showApiKeyInput ∧
          (fetchStations sessionWithCatalog (.networkError "boom".toList)).alerts =
            sessionWithCatalog.alerts ++ [stationsErrorText msg] ∧
          msg <:+: stationsErrorText msg) ∧
        (∀ c d, (FetchResult.networkError "boom".toList :
              FetchResult (Option (List Station))) = .response c (.parsed d) →
          (fetchStations sessionWithCatalog (.networkError "boom".toList)).stations =
            d.getD [] ∧
          (fetchStations sessionWithCatalog (.networkError "boom".toList)).filteredStations =
            d.getD [] ∧
          (fetchStations sessionWithCatalog (.networkError "boom".toList)).showApiKeyInput =
            false ∧
          (fetchStations sessionWithCatalog (.networkError "boom".toList)).alerts =
            sessionWithCatalog.alerts)) :=
  ⟨by decide, fetchStations_failure_success sessionWithCatalog (.networkError "boom".toList)
    (by decide)⟩

/-- Claim C3: for every non-empty series the statistics are: count = number
of observations, min and max the least and greatest of the null-coerced
values, and avg their sum divided by the count. -/
theorem computeStats_nonempty_spec (d : StationData) (h : d.observations ≠ []) :
    ∃ s, computeStats (some d) = some s ∧
      s.count = d.observations.length ∧
      (∃ m, s.min = .num m ∧ m ∈ obsValues d ∧ ∀ v ∈ obsValues d, m ≤ v) ∧
      (∃ M, s.max = .num M ∧ M ∈ obsValues d ∧ ∀ v ∈ obsValues d, v ≤ M) ∧
      s.avg = .num ((obsValues d).sum / (d.observations.length : ℚ)) := by
  have hv : obsValues d ≠ [] := by
    simpa [obsValues] using h
  have hlen : d.observations.length ≠ 0 := by
    simpa [List.length_eq_zero] using h
  refine ⟨_, rfl, rfl, mathMin_spec _ hv, mathMax_spec _ hv, ?_⟩
  show jsDiv (d.observations.foldl (fun sum o => sum + jsOr o.value) 0)
      d.observations.length = _
  rw [foldl_stats_sum]
  simp only [jsDiv, if_neg hlen]
  rfl

/-- Claim C3 witness: Scenario 2 — the theorem applies to the series with
values `10, null, 20`, and the resulting statistics are concretely
`{count := 3, min := 0, max := 20, avg := 10}` (null skews min to 0). -/
theorem computeStats_nonempty_spec_witness :
    (scenD.observations ≠ [] ∧
      ∃ s, computeStats (some scenD) = some s ∧
        s.count = scenD.observations.length ∧
        (∃ m, s.min = .num m ∧ m ∈ obsValues scenD ∧ ∀ v ∈ obsValues scenD, m ≤ v) ∧
        (∃ M, s.max = .num M ∧ M ∈ obsValues scenD ∧ ∀ v ∈ obsValues scenD, v ≤ M) ∧
        s.avg = .num ((obsValues scenD).sum / (scenD.observations.length : ℚ))) ∧
      computeStats (some scenD) =
        some { count := 3, min := .num 0, max := .num 20, avg := .num 10 } :=
  ⟨⟨by decide, computeStats_nonempty_spec scenD (by decide)⟩,
    by norm_num [computeStats, scenD, scenObs, mathMin, mathMax, jsDiv, jsOr,
      min_def, max_def]⟩

/-- Claim C6 counterexample: on a present-but-empty series the statistics
record exists with count `0` and min `Infinity` — a defined count and a
non-NaN min — against the claim that count, min, max and mean are all
undefined/absent (NaN).  (The chart-points half of the claim does hold.) -/
theorem stats_empty_series_not_nan :
    computeStats (some emptyD) =
        some { count := 0, min := .posInf, max := .negInf, avg := .nan } ∧
      JNum.posInf ≠ JNum.nan ∧ JNum.negInf ≠ JNum.nan := by
  refine ⟨by decide, by decide, by decide⟩

/-- Claim C6 (amended): when the series is present but has zero observations
the statistics are count `0`, min `Infinity`, max `-Infinity` and avg `NaN`
(only the mean is NaN), and the derived chart points are the empty
sequence. -/
theorem stats_and_chart_on_empty_series (fmt : Str → Str) (d : StationData)
    (h : d.observations = []) :
    computeStats (some d) =
        some { count := 0, min := .posInf, max := .negInf, avg := .nan } ∧
      chartData fmt (some d) = [] := by
  constructor
  · simp [computeStats, h, mathMin, mathMax, jsDiv]
  · simp [chartData, h]

/-- Claim C6 witness: the amended theorem applied to the empty-series station
data (with the identity timestamp formatter). -/
theorem stats_and_chart_on_empty_series_witness :
    emptyD.observations = [] ∧
      (computeStats (some emptyD) =
          some { count := 0, min := .posInf, max := .negInf, avg := .nan } ∧
        chartData id (some emptyD) = []) :=
  ⟨by decide, stats_and_chart_on_empty_series id emptyD (by decide)⟩

/-- Claim C7: `computeStats` is absent exactly when the series is absent, and
on every present non-empty series the finite statistics satisfy
min ≤ avg ≤ max. -/
theorem computeStats_absent_iff_and_bounds :
    (∀ sd : Option StationData, computeStats sd = none ↔ sd = none) ∧
    ∀ d : StationData, d.observations ≠ [] →
      ∃ s, computeStats (some d) = some s ∧
        ∃ m a M, s.min = .num m ∧ s.avg = .num a ∧ s.max = .num M ∧ m ≤ a ∧ a ≤ M := by
  constructor
  · intro sd
    cases sd <;> simp [computeStats]
  · intro d h
    have hv : obsValues d ≠ [] := by simpa [obsValues] using h
    have hlen : d.observations.length ≠ 0 := by simpa [List.length_eq_zero] using h
    have hlen' : (0 : ℚ) < d.observations.length := by
      exact_mod_cast Nat.pos_of_ne_zero hlen
    have hlenv : (obsValues d).length = d.observations.length := by
      simp [obsValues]
    obtain ⟨m, hmeq, hmem, hle⟩ := mathMin_spec (obsValues d) hv
    obtain ⟨M, hMeq, hMmem, hge⟩ := mathMax_spec (obsValues d) hv
    refine ⟨_, rfl, m, (obsValues d).sum / (d.observations.length : ℚ), M,
      hmeq, ?_, hMeq, ?_, ?_⟩
    · show jsDiv (d.observations.foldl (fun sum o => sum + jsOr o.value) 0)
          d.observations.length = _
      rw [foldl_stats_sum]
      simp only [jsDiv, if_neg hlen]
      rfl
    · rw [le_div_iff₀ hlen']
      have hsum := List.card_nsmul_le_sum (obsValues d) m hle
      rw [hlenv, nsmul_eq_mul] at hsum
      calc m * (d.observations.length : ℚ)
          = (d.observations.length : ℚ) * m := mul_comm _ _
        _ ≤ _ := hsum
    · rw [div_le_iff₀ hlen']
      have hsum := List.sum_le_card_nsmul (obsValues d) M hge
      rw [hlenv, nsmul_eq_mul] at hsum
      calc (obsValues d).sum ≤ (d.observations.length : ℚ) * M := hsum
        _ = M * (d.observations.length : ℚ) := mul_comm _ _

/-- Claim C7 witness: the bounds half applied to the Scenario-2 series. -/
theorem computeStats_absent_iff_and_bounds_witness :
    scenD.observations ≠ [] ∧
      ∃ s, computeStats (some scenD) = some s ∧
        ∃ m a M, s.min = .num m ∧ s.avg = .num a ∧ s.max = .num M ∧ m ≤ a ∧ a ≤ M :=
  ⟨by decide, computeStats_absent_iff_and_bounds.2 scenD (by decide)⟩

/-- Claim C5: the delimited text consists of the header `Time,Value (<unit>)`
followed by one `time,value` row per observation (a null value giving an
empty field), so splitting on newline recovers exactly those `n + 1` lines,
the first being the header — under the claim's own safety assumption that
timestamps and the unit contain no newline (values cannot, by
`renderValue_ne_newline`). -/
theorem toDelimitedText_lines (d : StationData)
    (ht : ∀ o ∈ d.observations, ('\n' : Char) ∉ o.time)
    (hu : ('\n' : Char) ∉ d.unit) :
    (toDelimitedText d).splitOn '\n' =
        ("Time,Value (".toList ++ d.unit ++ [')']) ::
          d.observations.map (fun o => o.time ++ ',' :: renderValue o.value) ∧
      ((toDelimitedText d).splitOn '\n').length = d.observations.length + 1 ∧
      ((toDelimitedText d).splitOn '\n').head? =
        some ("Time,Value (".toList ++ d.unit ++ [')']) := by
  have hrepr : toDelimitedText d =
      List.intercalate ['\n']
        (("Time,Value (".toList ++ d.unit ++ [')']) ::
          d.observations.map (fun o => o.time ++ ',' :: renderValue o.value)) := by
    simp only [toDelimitedText, intercalate_pair]
    congr 1
  have hmem : ∀ l ∈ (("Time,Value (".toList ++ d.unit ++ [')']) ::
      d.observations.map (fun o => o.time ++ ',' :: renderValue o.value)),
      ('\n' : Char) ∉ l := by
    intro l hl
    rcases List.mem_cons.mp hl with rfl | hl
    · intro hc
      rcases List.mem_append.mp hc with hc | hc
      · rcases List.mem_append.mp hc with hc | hc
        · exact absurd hc (by decide)
        · exact hu hc
      · exact absurd (List.mem_singleton.mp hc) (by decide)
    · rcases List.mem_map.mp hl with ⟨o, ho, rfl⟩
      intro hc
      rcases List.mem_append.mp hc with hc | hc
      · exact ht o ho hc
      · rcases List.mem_cons.mp hc with hc | hc
        · exact absurd hc (by decide)
        · exact renderValue_ne_newline o.value hc
  rw [hrepr, List.splitOn_intercalate _ '\n' hmem (by simp)]
  exact ⟨rfl, by simp, rfl⟩

/-- Claim C5 witness: Scenario 5 — the theorem applies to the Scenario-2
series with unit `m3/s`, and the text is concretely
`Time,Value (m3/s)\nt1,10\nt2,\nt3,20`. -/
theorem toDelimitedText_lines_witness :
    (∀ o ∈ scenD.observations, ('\n' : Char) ∉ o.time) ∧
      ('\n' : Char) ∉ scenD.unit ∧
      ((toDelimitedText scenD).splitOn '\n' =
          ("Time,Value (".toList ++ scenD.unit ++ [')']) ::
            scenD.observations.map (fun o => o.time ++ ',' :: renderValue o.value) ∧
        ((toDelimitedText scenD).splitOn '\n').length = scenD.observations.length + 1 ∧
        ((toDelimitedText scenD).splitOn '\n').head? =
          some ("Time,Value (".toList ++ scenD.unit ++ [')'])) ∧
      toDelimitedText scenD = "Time,Value (m3/s)\nt1,10\nt2,\nt3,20".toList :=
  ⟨by decide, by decide, toDelimitedText_lines scenD (by decide) (by decide), by decide⟩

end NVE
